import Mathlib

/-!
Verification of the CV extraction-and-repair pipeline implemented in
backend/services/ai_processor.py.  Strings are modelled as lists of
characters; the Python functions of the AIProcessor class are translated
to executable Lean functions, and the testable properties of the
specification are settled against them.
-/

namespace CvAi

/-- Strings of the Python source are modelled as lists of characters. -/
abbrev Str := List Char

/-- Conversion from Lean string literals to the character-list model. -/
def chars (s : String) : Str := s.data

/-- The whitespace characters stripped by Python str.strip(). -/
def isPyWs (c : Char) : Bool :=
  c = ' ' || c = '\t' || c = '\n' || c = '\r' || c = '\x0b' || c = '\x0c'

/-- Python str.strip(): remove leading and trailing whitespace. -/
def pyStrip (s : Str) : Str :=
  ((s.dropWhile isPyWs).reverse.dropWhile isPyWs).reverse

/-- Python str.rstrip(): remove trailing whitespace. -/
def pyRStrip (s : Str) : Str := (s.reverse.dropWhile isPyWs).reverse

/-- Python str.rstrip(theComma): remove trailing comma characters. -/
def rstripComma (s : Str) : Str := (s.reverse.dropWhile (fun c => c = ',')).reverse

/-- Contribution of one character to the running curly-brace counter. -/
def braceDelta (c : Char) : Int := if c = '{' then 1 else if c = '}' then -1 else 0

/-- Contribution of one character to the running square-bracket counter. -/
def bracketDelta (c : Char) : Int := if c = '[' then 1 else if c = ']' then -1 else 0

/-- Curly-brace balance of a whole string (opens minus closes). -/
def braceDepth (s : Str) : Int := (s.map braceDelta).sum

/-- Square-bracket balance of a whole string (opens minus closes). -/
def bracketDepth (s : Str) : Int := (s.map bracketDelta).sum

/-- Both running counters are exactly zero after the first i characters. -/
def bothZeroAt (s : Str) (i : Nat) : Prop :=
  braceDepth (s.take i) = 0 ∧ bracketDepth (s.take i) = 0

instance (s : Str) (i : Nat) : Decidable (bothZeroAt s i) := by
  unfold bothZeroAt; infer_instance

/-- Loop body of _find_last_complete_structure: walk the string keeping the
running brace and bracket counters, the current position and the last
position at which both counters were zero. -/
def flcsGo : Str → Int → Int → Nat → Nat → Nat
  | [], _, _, _, best => best
  | c :: cs, bc, bk, pos, best =>
    flcsGo cs (bc + braceDelta c) (bk + bracketDelta c) (pos + 1)
      (if bc + braceDelta c = 0 ∧ bk + bracketDelta c = 0 then pos + 1 else best)

/-- AIProcessor._find_last_complete_structure: the position just after the
last character at which the running brace and bracket counters are both
zero, or 0 when there is no such character. -/
def find_last_complete_structure (s : Str) : Nat := flcsGo s 0 0 0 0

theorem braceDepth_nil : braceDepth [] = 0 := rfl

theorem bracketDepth_nil : bracketDepth [] = 0 := rfl

theorem braceDepth_cons (c : Char) (l : Str) :
    braceDepth (c :: l) = braceDelta c + braceDepth l := by
  simp [braceDepth]

theorem bracketDepth_cons (c : Char) (l : Str) :
    bracketDepth (c :: l) = bracketDelta c + bracketDepth l := by
  simp [bracketDepth]

theorem take_one_cons (c : Char) (cs : Str) : (c :: cs).take 1 = [c] := rfl

theorem take_succ_cons (c : Char) (cs : Str) (n : Nat) :
    (c :: cs).take (n + 1) = c :: cs.take n := rfl

/-- The loop result is either the incoming best value or a position pos + j
with 1 ≤ j at which both accumulated counters vanish. -/
theorem flcsGo_mem (cs : Str) : ∀ (bc bk : Int) (pos best : Nat),
    flcsGo cs bc bk pos best = best ∨
    ∃ j, 1 ≤ j ∧ j ≤ cs.length ∧
      bc + braceDepth (cs.take j) = 0 ∧ bk + bracketDepth (cs.take j) = 0 ∧
      flcsGo cs bc bk pos best = pos + j := by
  induction cs with
  | nil => intro bc bk pos best; exact Or.inl rfl
  | cons c cs ih =>
    intro bc bk pos best
    have hstep : flcsGo (c :: cs) bc bk pos best =
        flcsGo cs (bc + braceDelta c) (bk + bracketDelta c) (pos + 1)
          (if bc + braceDelta c = 0 ∧ bk + bracketDelta c = 0 then pos + 1 else best) := rfl
    rcases ih (bc + braceDelta c) (bk + bracketDelta c) (pos + 1)
        (if bc + braceDelta c = 0 ∧ bk + bracketDelta c = 0 then pos + 1 else best) with
      h | ⟨j, hj1, hjle, hbz, hkz, hres⟩
    · by_cases hz : bc + braceDelta c = 0 ∧ bk + bracketDelta c = 0
      · right
        refine ⟨1, le_refl 1, by simp, ?_, ?_, ?_⟩
        · rw [take_one_cons, braceDepth_cons, braceDepth_nil]
          omega
        · rw [take_one_cons, bracketDepth_cons, bracketDepth_nil]
          omega
        · rw [hstep, h, if_pos hz]
      · left
        rw [hstep, h, if_neg hz]
    · right
      refine ⟨j + 1, by omega, by simp; omega, ?_, ?_, ?_⟩
      · rw [take_succ_cons, braceDepth_cons]
        omega
      · rw [take_succ_cons, bracketDepth_cons]
        omega
      · rw [hstep, hres]
        omega

/-- The loop result is at least the incoming best value and at least every
position pos + j at which both accumulated counters vanish. -/
theorem flcsGo_ge (cs : Str) : ∀ (bc bk : Int) (pos best : Nat), best ≤ pos →
    best ≤ flcsGo cs bc bk pos best ∧
    ∀ j, 1 ≤ j → j ≤ cs.length →
      bc + braceDepth (cs.take j) = 0 → bk + bracketDepth (cs.take j) = 0 →
      pos + j ≤ flcsGo cs bc bk pos best := by
  induction cs with
  | nil =>
    intro bc bk pos best _
    exact ⟨le_refl best, fun j hj1 hjle _ _ => by simp at hjle; omega⟩
  | cons c cs ih =>
    intro bc bk pos best hbp
    have hstep : flcsGo (c :: cs) bc bk pos best =
        flcsGo cs (bc + braceDelta c) (bk + bracketDelta c) (pos + 1)
          (if bc + braceDelta c = 0 ∧ bk + bracketDelta c = 0 then pos + 1 else best) := rfl
    have hb' : (if bc + braceDelta c = 0 ∧ bk + bracketDelta c = 0 then pos + 1 else best)
        ≤ pos + 1 := by
      split <;> omega
    obtain ⟨ih1, ih2⟩ := ih (bc + braceDelta c) (bk + bracketDelta c) (pos + 1)
      (if bc + braceDelta c = 0 ∧ bk + bracketDelta c = 0 then pos + 1 else best) hb'
    constructor
    · rw [hstep]
      by_cases hz : bc + braceDelta c = 0 ∧ bk + bracketDelta c = 0
      · have := ih1
        rw [if_pos hz] at this ⊢
        omega
      · rw [if_neg hz] at ih1 ⊢
        exact ih1
    · intro j hj1 hjle hbz hkz
      rw [hstep]
      match j, hj1 with
      | 1, _ =>
        have hz : bc + braceDelta c = 0 ∧ bk + bracketDelta c = 0 := by
          constructor
          · rw [take_one_cons, braceDepth_cons, braceDepth_nil] at hbz
            omega
          · rw [take_one_cons, bracketDepth_cons, bracketDepth_nil] at hkz
            omega
        rw [if_pos hz] at ih1 ⊢
        omega
      | j' + 2, _ =>
        have h1 : 1 ≤ j' + 1 := by omega
        have h2 : j' + 1 ≤ cs.length := by simp at hjle; omega
        have h3 : bc + braceDelta c + braceDepth (cs.take (j' + 1)) = 0 := by
          rw [show j' + 2 = (j' + 1) + 1 from rfl, take_succ_cons, braceDepth_cons] at hbz
          omega
        have h4 : bk + bracketDelta c + bracketDepth (cs.take (j' + 1)) = 0 := by
          rw [show j' + 2 = (j' + 1) + 1 from rfl, take_succ_cons, bracketDepth_cons] at hkz
          omega
        have := ih2 (j' + 1) h1 h2 h3 h4
        omega

/-- Brace balance equals the count of opening braces minus closing braces. -/
theorem braceDepth_eq_counts (l : Str) :
    braceDepth l = (l.count '{' : Int) - (l.count '}' : Int) := by
  induction l with
  | nil => rfl
  | cons c cs ih =>
    rw [braceDepth_cons, ih]
    by_cases h1 : c = '{'
    · subst h1; simp [braceDelta, List.count_cons]
      omega
    · by_cases h2 : c = '}'
      · subst h2; simp [braceDelta, List.count_cons]
        omega
      · simp [braceDelta, h1, h2, List.count_cons, Ne.symm h1, Ne.symm h2]

/-- Bracket balance equals the count of opening minus closing brackets. -/
theorem bracketDepth_eq_counts (l : Str) :
    bracketDepth l = (l.count '[' : Int) - (l.count ']' : Int) := by
  induction l with
  | nil => rfl
  | cons c cs ih =>
    rw [bracketDepth_cons, ih]
    by_cases h1 : c = '['
    · subst h1; simp [bracketDelta, List.count_cons]
      omega
    · by_cases h2 : c = ']'
      · subst h2; simp [bracketDelta, List.count_cons]
        omega
      · simp [bracketDelta, h1, h2, List.count_cons, Ne.symm h1, Ne.symm h2]

/-- C10: _find_last_complete_structure returns the greatest index i (or 0 if
none exists) at which the running brace and bracket counters over the first
i characters are both exactly zero; the designated prefix therefore contains
equally many opening and closing braces, and equally many opening and
closing brackets. -/
theorem c10_find_last_complete_structure (s : Str) :
    find_last_complete_structure s ≤ s.length ∧
    (1 ≤ find_last_complete_structure s → bothZeroAt s (find_last_complete_structure s)) ∧
    (∀ j, 1 ≤ j → j ≤ s.length → bothZeroAt s j → j ≤ find_last_complete_structure s) ∧
    ((s.take (find_last_complete_structure s)).count '{'
        = (s.take (find_last_complete_structure s)).count '}' ∧
      (s.take (find_last_complete_structure s)).count '['
        = (s.take (find_last_complete_structure s)).count ']') := by
  have hmem := flcsGo_mem s 0 0 0 0
  have hge := flcsGo_ge s 0 0 0 0 (le_refl 0)
  have hlen : find_last_complete_structure s ≤ s.length := by
    unfold find_last_complete_structure
    rcases hmem with h | ⟨j, _, hjle, _, _, hres⟩
    · rw [h]
      omega
    · rw [hres]
      omega
  have hzero : 1 ≤ find_last_complete_structure s →
      bothZeroAt s (find_last_complete_structure s) := by
    intro h1
    unfold find_last_complete_structure at h1 ⊢
    rcases hmem with h | ⟨j, _, _, hbz, hkz, hres⟩
    · rw [h] at h1
      omega
    · rw [hres]
      constructor
      · show braceDepth (s.take (0 + j)) = 0
        rw [Nat.zero_add]
        omega
      · show bracketDepth (s.take (0 + j)) = 0
        rw [Nat.zero_add]
        omega
  have hgreat : ∀ j, 1 ≤ j → j ≤ s.length → bothZeroAt s j →
      j ≤ find_last_complete_structure s := by
    intro j hj1 hjle hz
    have := hge.2 j hj1 hjle (by have := hz.1; omega) (by have := hz.2; omega)
    unfold find_last_complete_structure
    omega
  refine ⟨hlen, hzero, hgreat, ?_⟩
  by_cases h1 : 1 ≤ find_last_complete_structure s
  · obtain ⟨hb, hk⟩ := hzero h1
    rw [braceDepth_eq_counts] at hb
    rw [bracketDepth_eq_counts] at hk
    omega
  · have h0 : find_last_complete_structure s = 0 := by omega
    simp [h0]

/-- C10 witness: on a concrete string the scan result is the greatest
balanced position. -/
theorem c10_witness :
    find_last_complete_structure (chars "\x7b\x7d\x7b") = 2 ∧
    bothZeroAt (chars "\x7b\x7d\x7b") (find_last_complete_structure (chars "\x7b\x7d\x7b")) ∧
    ¬ bothZeroAt (chars "\x7b\x7d\x7b") 3 := by
  have h := c10_find_last_complete_structure (chars "\x7b\x7d\x7b")
  refine ⟨by decide, h.2.1 (by decide), fun hb => ?_⟩
  have hle := h.2.2.1 3 (by decide) (by decide) hb
  rw [show find_last_complete_structure (chars "\x7b\x7d\x7b") = 2 by decide] at hle
  omega

theorem braceDepth_append (l1 l2 : Str) :
    braceDepth (l1 ++ l2) = braceDepth l1 + braceDepth l2 := by
  simp [braceDepth]

theorem bracketDepth_append (l1 l2 : Str) :
    bracketDepth (l1 ++ l2) = bracketDepth l1 + bracketDepth l2 := by
  simp [bracketDepth]

theorem braceDepth_replicate (n : Nat) (c : Char) :
    braceDepth (List.replicate n c) = n * braceDelta c := by
  induction n with
  | zero => simp [braceDepth]
  | succ k ih =>
    rw [List.replicate_succ, braceDepth_cons, ih]
    push_cast
    ring

theorem bracketDepth_replicate (n : Nat) (c : Char) :
    bracketDepth (List.replicate n c) = n * bracketDelta c := by
  induction n with
  | zero => simp [bracketDepth]
  | succ k ih =>
    rw [List.replicate_succ, bracketDepth_cons, ih]
    push_cast
    ring

/-- AIProcessor._fix_truncated_json: strip the response, keep the prefix up
to the last position at which braces and brackets are balanced if one
exists, otherwise append the missing closing brackets and then the missing
closing braces (counted by total opens minus closes; a negative count
appends nothing, like an empty Python range). -/
def fix_truncated_json (s : Str) : Str :=
  let response := pyStrip s
  let last_complete_pos := find_last_complete_structure response
  if 0 < last_complete_pos then response.take last_complete_pos
  else
    let open_braces : Int := (response.count '{' : Int) - (response.count '}' : Int)
    let open_brackets : Int := (response.count '[' : Int) - (response.count ']' : Int)
    response ++ List.replicate open_brackets.toNat ']' ++ List.replicate open_braces.toNat '}'

/-- No stray closers: every prefix has nonnegative running brace and bracket
counters. -/
def noStrayClosers (s : Str) : Bool :=
  (List.range (s.length + 1)).all
    (fun i => decide (0 ≤ braceDepth (s.take i)) && decide (0 ≤ bracketDepth (s.take i)))

/-- C3 counterexample: on the string consisting of a brace pair followed by
one unmatched opening brace (one unmatched opener, no stray closers), the
completion repair returns the balanced two-character prefix instead of the
input with one closing brace appended, so the claim fails as stated. -/
theorem c3_counterexample :
    noStrayClosers (chars "\x7b\x7d\x7b") = true ∧
    (chars "\x7b\x7d\x7b").count '{' = (chars "\x7b\x7d\x7b").count '}' + 1 ∧
    (chars "\x7b\x7d\x7b").count '[' = (chars "\x7b\x7d\x7b").count ']' + 0 ∧
    fix_truncated_json (chars "\x7b\x7d\x7b") = chars "\x7b\x7d" ∧
    fix_truncated_json (chars "\x7b\x7d\x7b") ≠
      chars "\x7b\x7d\x7b" ++ List.replicate 0 ']' ++ List.replicate 1 '}' := by
  refine ⟨by decide, by decide, by decide, by decide, by decide⟩

/-- C3 amended: when additionally no nonempty prefix of the stripped input
is fully balanced, the completion repair appends exactly M closing brackets
and then N closing braces to the stripped input, the result has brace and
bracket depth zero at its end, and its leading content is the stripped
input. -/
theorem c3_completion_by_closing (s : Str) (N M : Nat)
    (hN : (pyStrip s).count '{' = (pyStrip s).count '}' + N)
    (hM : (pyStrip s).count '[' = (pyStrip s).count ']' + M)
    (_hns : noStrayClosers (pyStrip s) = true)
    (hnp : find_last_complete_structure (pyStrip s) = 0) :
    fix_truncated_json s = pyStrip s ++ List.replicate M ']' ++ List.replicate N '}' ∧
    braceDepth (fix_truncated_json s) = 0 ∧
    bracketDepth (fix_truncated_json s) = 0 ∧
    (fix_truncated_json s).take (pyStrip s).length = pyStrip s := by
  have hob : ((pyStrip s).count '{' : Int) - ((pyStrip s).count '}' : Int) = (N : Int) := by
    rw [hN]; push_cast; ring
  have hok : ((pyStrip s).count '[' : Int) - ((pyStrip s).count ']' : Int) = (M : Int) := by
    rw [hM]; push_cast; ring
  have heq : fix_truncated_json s
      = pyStrip s ++ List.replicate M ']' ++ List.replicate N '}' := by
    unfold fix_truncated_json
    simp only [hnp, hob, hok, Nat.lt_irrefl, if_false, Int.toNat_natCast]
  refine ⟨heq, ?_, ?_, ?_⟩
  · rw [heq, braceDepth_append, braceDepth_append, braceDepth_replicate,
      braceDepth_replicate, braceDepth_eq_counts, hN]
    have h1 : braceDelta ']' = 0 := rfl
    have h2 : braceDelta '}' = -1 := rfl
    rw [h1, h2]
    push_cast
    ring
  · rw [heq, bracketDepth_append, bracketDepth_append, bracketDepth_replicate,
      bracketDepth_replicate, bracketDepth_eq_counts, hM]
    have h1 : bracketDelta ']' = -1 := rfl
    have h2 : bracketDelta '}' = 0 := rfl
    rw [h1, h2]
    push_cast
    ring
  · rw [heq, List.append_assoc]
    exact List.take_left _ _

/-- C3 witness: a concrete truncated object with one open brace and one open
bracket is completed by appending a bracket and then a brace. -/
theorem c3_witness :
    fix_truncated_json (chars "\x7b\"a\": [")
      = pyStrip (chars "\x7b\"a\": [") ++ List.replicate 1 ']' ++ List.replicate 1 '}' ∧
    braceDepth (fix_truncated_json (chars "\x7b\"a\": [")) = 0 := by
  have h := c3_completion_by_closing (chars "\x7b\"a\": [") 1 1
    (by decide) (by decide) (by decide) (by decide)
  exact ⟨h.1, h.2.1⟩

/-! ## JSON values

Parsed JSON objects (the results of the external json.loads) are modelled
as a small value type; Python dicts become association lists. -/

/-- A parsed JSON value as produced by the external JSON parser. -/
inductive JsonValue where
  | null : JsonValue
  | bool (b : Bool) : JsonValue
  | num (n : Int) : JsonValue
  | str (s : Str) : JsonValue
  | arr (elems : List JsonValue) : JsonValue
  | obj (fields : List (Str × JsonValue)) : JsonValue

/-- Python dict lookup (keys are unique, first match). -/
def getKey (fields : List (Str × JsonValue)) (k : Str) : Option JsonValue :=
  match fields with
  | [] => none
  | (k', v) :: rest => if k' = k then some v else getKey rest k

/-- Python truthiness of a JSON value: None, False, 0, empty string, empty
list and empty dict are falsy. -/
def pyTruthy : JsonValue → Bool
  | .null => false
  | .bool b => b
  | .num n => decide (n ≠ 0)
  | .str s => !s.isEmpty
  | .arr l => !l.isEmpty
  | .obj m => !m.isEmpty

/-! ## The key-quoting repair (_fix_common_json_issues)

The five re.sub passes are modelled as left-to-right non-overlapping
single-pass rewriters.  The regex fragment backslash-s* is greedy
whitespace, and the captured group is the longest nonempty run of
non-quote non-whitespace characters that is immediately followed by a
colon (Python's greedy-plus-backtracking behaviour: the colon itself
belongs to the character class, so the group extends to the last colon
reachable inside the run). -/

/-- Length of the leading whitespace run (the regex fragment backslash-s*). -/
def wsLen (s : Str) : Nat := (s.takeWhile isPyWs).length

/-- Characters allowed in the captured key group: anything except a double
quote and whitespace. -/
def keyClass (c : Char) : Bool := !(c == '"' || isPyWs c)

/-- Length of the maximal run of key-class characters. -/
def keyRunLen (s : Str) : Nat := (s.takeWhile keyClass).length

/-- Largest k with 1 ≤ k ≤ m such that the character at index k is a colon
(the backtracking search for the colon that ends the captured group). -/
def lastColonLe (s : Str) : Nat → Option Nat
  | 0 => none
  | k + 1 => if s.get? (k + 1) = some ':' then some (k + 1) else lastColonLe s k

/-- Match the regex tail ws* group colon at the start of t; return the
captured group and the number of characters consumed. -/
def matchWsKeyColon (t : Str) : Option (Str × Nat) :=
  let w := wsLen t
  let u := t.drop w
  match lastColonLe u (keyRunLen u) with
  | some k => some (u.take k, w + k + 1)
  | none => none

/-- Pattern 1: open bracket, ws, open brace, ws, key, colon; rewritten to
the bracket-brace pair with the key quoted. -/
def tryP1 (s : Str) : Option (Str × Nat) :=
  match s with
  | '[' :: t1 =>
    let w1 := wsLen t1
    match t1.drop w1 with
    | '{' :: t2 =>
      match matchWsKeyColon t2 with
      | some (g, n) => some (chars "[\x7b \"" ++ g ++ chars "\":", w1 + 1 + n)
      | none => none
    | _ => none
  | _ => none

/-- Pattern 2: open brace, ws, key, colon; rewritten with the key quoted. -/
def tryP2 (s : Str) : Option (Str × Nat) :=
  match s with
  | '{' :: t =>
    match matchWsKeyColon t with
    | some (g, n) => some (chars "\x7b \"" ++ g ++ chars "\":", n)
    | none => none
  | _ => none

/-- Pattern 3: comma, ws, key, colon; rewritten with the key quoted. -/
def tryP3 (s : Str) : Option (Str × Nat) :=
  match s with
  | ',' :: t =>
    match matchWsKeyColon t with
    | some (g, n) => some (chars ", \"" ++ g ++ chars "\":", n)
    | none => none
  | _ => none

/-- Pattern 4: colon, ws, open brace, ws, key, colon; rewritten with the key
quoted. -/
def tryP4 (s : Str) : Option (Str × Nat) :=
  match s with
  | ':' :: t1 =>
    let w1 := wsLen t1
    match t1.drop w1 with
    | '{' :: t2 =>
      match matchWsKeyColon t2 with
      | some (g, n) => some (chars ": \x7b \"" ++ g ++ chars "\":", w1 + 1 + n)
      | none => none
    | _ => none
  | _ => none

/-- Pattern 5: open brace, ws, quote, colon, ws, quoted value; the missing
key is rewritten to the literal key name. -/
def tryP5 (s : Str) : Option (Str × Nat) :=
  match s with
  | '{' :: t1 =>
    let w := wsLen t1
    match t1.drop w with
    | '"' :: ':' :: t2 =>
      let w2 := wsLen t2
      match t2.drop w2 with
      | '"' :: t3 =>
        let m := (t3.takeWhile (fun c => !(c == '"'))).length
        if 1 ≤ m then
          match t3.drop m with
          | '"' :: _ => some (chars "\x7b \"name\": \"" ++ t3.take m ++ chars "\"", w + 2 + w2 + 1 + m + 1)
          | _ => none
        else none
      | _ => none
    | _ => none
  | _ => none

/-- One re.sub pass with explicit fuel: scan left to right, at each position
either emit the replacement of a match and continue after it, or keep the
character.  The fuel is at least the string length, and every match
consumes at least one character, so the fuel never runs out. -/
def subPassF (tryM : Str → Option (Str × Nat)) : Nat → Str → Str
  | 0, s => s
  | _ + 1, [] => []
  | f + 1, c :: cs =>
    match tryM (c :: cs) with
    | some (rep, extra) => rep ++ subPassF tryM f (cs.drop extra)
    | none => c :: subPassF tryM f cs

/-- One full re.sub pass over a string. -/
def subPassRun (tryM : Str → Option (Str × Nat)) (s : Str) : Str :=
  subPassF tryM s.length s

/-- AIProcessor._fix_common_json_issues: the five sequential re.sub passes
that quote unquoted object keys. -/
def fix_common_json_issues (s : Str) : Str :=
  subPassRun tryP5 (subPassRun tryP4 (subPassRun tryP3 (subPassRun tryP2 (subPassRun tryP1 s))))

/-- No position of the string matches the given pattern. -/
def noMatchB (tryM : Str → Option (Str × Nat)) : Str → Bool
  | [] => true
  | c :: cs => (tryM (c :: cs)).isNone && noMatchB tryM cs

theorem subPassF_id (tryM : Str → Option (Str × Nat)) :
    ∀ (f : Nat) (s : Str), s.length ≤ f → noMatchB tryM s = true →
      subPassF tryM f s = s := by
  intro f
  induction f with
  | zero => intro s _ _; rfl
  | succ k ih =>
    intro s hle hnm
    match s with
    | [] => rfl
    | c :: cs =>
      simp only [noMatchB, Bool.and_eq_true, Option.isNone_iff_eq_none] at hnm
      simp only [subPassF, hnm.1]
      rw [ih cs (by simp at hle; omega) hnm.2]

theorem subPassRun_id (tryM : Str → Option (Str × Nat)) (s : Str)
    (h : noMatchB tryM s = true) : subPassRun tryM s = s :=
  subPassF_id tryM s.length s (le_refl _) h

/-! ## The external JSON parser

Modelled from the spec: the repair strategies hand candidate strings to the
external strict JSON parser (Python's json.loads, standard-library code not
part of this repository).  jsonWf is a recursive-descent recogniser of the
JSON grammar used to certify on concrete strings whether json.loads
succeeds (the Python-specific NaN/Infinity extensions are not needed for
any string considered here). -/

/-- JSON insignificant whitespace. -/
def skipJWs (s : Str) : Str :=
  s.dropWhile (fun c => c == ' ' || c == '\t' || c == '\n' || c == '\r')

/-- Hexadecimal digit test for unicode escapes. -/
def isHexDig (c : Char) : Bool :=
  c.isDigit || ('a' ≤ c && c ≤ 'f') || ('A' ≤ c && c ≤ 'F')

/-- Consume the body of a JSON string after the opening quote. -/
def pStrBody : Str → Option Str
  | [] => none
  | c :: r =>
    if c = '"' then some r
    else if c = '\\' then
      match r with
      | [] => none
      | e :: r2 =>
        if e = '"' || e = '\\' || e = '/' || e = 'b' || e = 'f' || e = 'n' || e = 'r' || e = 't' then
          pStrBody r2
        else if e = 'u' then
          match r2 with
          | a :: b :: c2 :: d :: r3 =>
            if isHexDig a && isHexDig b && isHexDig c2 && isHexDig d then pStrBody r3
            else none
          | _ => none
        else none
    else if c.val < 32 then none
    else pStrBody r

/-- Consume a maximal run of decimal digits. -/
def dropDigits (s : Str) : Str := s.dropWhile Char.isDigit

/-- Optional fraction part of a JSON number (left unconsumed if absent). -/
def pFracPart (s : Str) : Str :=
  match s with
  | '.' :: d :: r => if d.isDigit then dropDigits r else s
  | _ => s

/-- Optional exponent part of a JSON number (left unconsumed if absent). -/
def pExpPart (s : Str) : Str :=
  match s with
  | 'e' :: r | 'E' :: r =>
    match (match r with | '+' :: rr => rr | '-' :: rr => rr | _ => r) with
    | d :: rr => if d.isDigit then dropDigits rr else s
    | [] => s
  | _ => s

/-- Consume a JSON number. -/
def pNum (s : Str) : Option Str :=
  match (match s with | '-' :: r => r | _ => s) with
  | c :: r =>
    if c = '0' then some (pExpPart (pFracPart r))
    else if c.isDigit then some (pExpPart (pFracPart (dropDigits r)))
    else none
  | [] => none

mutual

/-- Consume one JSON value. -/
def pVal : Nat → Str → Option Str
  | 0, _ => none
  | f + 1, s =>
    match s with
    | '{' :: r =>
      (match skipJWs r with
       | '}' :: r2 => some r2
       | r1 => pMembers f r1)
    | '[' :: r =>
      (match skipJWs r with
       | ']' :: r2 => some r2
       | r1 => pElems f r1)
    | '"' :: r => pStrBody r
    | 't' :: 'r' :: 'u' :: 'e' :: r => some r
    | 'f' :: 'a' :: 'l' :: 's' :: 'e' :: r => some r
    | 'n' :: 'u' :: 'l' :: 'l' :: r => some r
    | _ => pNum s

/-- Consume the members of a JSON object after the opening brace. -/
def pMembers : Nat → Str → Option Str
  | 0, _ => none
  | f + 1, s =>
    match s with
    | '"' :: r =>
      (match pStrBody r with
       | none => none
       | some r2 =>
         match skipJWs r2 with
         | ':' :: r3 =>
           (match pVal f (skipJWs r3) with
            | none => none
            | some r4 =>
              match skipJWs r4 with
              | ',' :: r5 => pMembers f (skipJWs r5)
              | '}' :: r5 => some r5
              | _ => none)
         | _ => none)
    | _ => none

/-- Consume the elements of a JSON array after the opening bracket. -/
def pElems : Nat → Str → Option Str
  | 0, _ => none
  | f + 1, s =>
    match pVal f s with
    | none => none
    | some r =>
      match skipJWs r with
      | ',' :: r2 => pElems f (skipJWs r2)
      | ']' :: r2 => some r2
      | _ => none

end

/-- Whether a whole string is well-formed JSON (json.loads succeeds). -/
def jsonWf (s : Str) : Bool :=
  match pVal (2 * s.length + 2) (skipJWs s) with
  | some r => (skipJWs r).isEmpty
  | none => false

/-! ## Extraction and completion strategies -/

/-- Index of the first opening brace (Python str.find). -/
def firstBraceIdx : Str → Option Nat
  | [] => none
  | c :: cs => if c = '{' then some 0 else (firstBraceIdx cs).map (· + 1)

/-- Loop of _extract_valid_json: walking with a running brace counter,
return the index of the closing brace that balances the counter. -/
def findMatch (bal : Int) : Str → Option Nat
  | [] => none
  | c :: cs =>
    if c = '}' ∧ bal + braceDelta c = 0 then some 0
    else (findMatch (bal + braceDelta c) cs).map (· + 1)

/-- AIProcessor._extract_valid_json: take the substring from the first
opening brace to its balancing closing brace and keep it if it parses. -/
def extract_valid_json (parse : Str → Option JsonValue) (response : Str) : Option Str :=
  match firstBraceIdx response with
  | none => none
  | some start_brace =>
    match findMatch 0 (response.drop start_brace) with
    | none => none
    | some j =>
      match parse ((response.drop start_brace).take (j + 1)) with
      | some _ => some ((response.drop start_brace).take (j + 1))
      | none => none

/-- AIProcessor._complete_truncated_json: strip, keep the prefix up to the
last balanced position if one exists (without a parse check), otherwise
append the missing closers (failing on a surplus of closers), accept the
completed text if it parses, and otherwise retry once after the key-quoting
repair. -/
def complete_truncated_json (parse : Str → Option JsonValue) (s : Str) : Option Str :=
  let response := pyStrip s
  let last_complete := find_last_complete_structure response
  if 0 < last_complete then some (response.take last_complete)
  else
    let open_braces : Int := (response.count '{' : Int) - (response.count '}' : Int)
    let open_brackets : Int := (response.count '[' : Int) - (response.count ']' : Int)
    if open_braces < 0 ∨ open_brackets < 0 then none
    else
      let completed := response ++ List.replicate open_brackets.toNat ']'
        ++ List.replicate open_braces.toNat '}'
      match parse completed with
      | some _ => some completed
      | none =>
        let fixed := fix_common_json_issues completed
        match parse fixed with
        | some _ => some fixed
        | none => none

/-! ## C5: idempotence of repair strategies -/

theorem findMatch_lt (l : Str) : ∀ (bal : Int) (j : Nat),
    findMatch bal l = some j → j < l.length := by
  induction l with
  | nil => intro bal j h; simp [findMatch] at h
  | cons c cs ih =>
    intro bal j h
    by_cases hc : c = '}' ∧ bal + braceDelta c = 0
    · simp only [findMatch, if_pos hc, Option.some.injEq] at h
      simp [← h]
    · simp only [findMatch, if_neg hc] at h
      cases hfm : findMatch (bal + braceDelta c) cs with
      | none => rw [hfm] at h; simp at h
      | some j' =>
        rw [hfm] at h
        simp only [Option.map_some', Option.some.injEq] at h
        have := ih (bal + braceDelta c) j' hfm
        simp [← h]
        omega

theorem findMatch_take (l : Str) : ∀ (bal : Int) (j : Nat),
    findMatch bal l = some j → findMatch bal (l.take (j + 1)) = some j := by
  induction l with
  | nil => intro bal j h; simp [findMatch] at h
  | cons c cs ih =>
    intro bal j h
    by_cases hc : c = '}' ∧ bal + braceDelta c = 0
    · simp only [findMatch, if_pos hc, Option.some.injEq] at h
      rw [← h, take_one_cons]
      simp [findMatch, if_pos hc]
    · simp only [findMatch, if_neg hc] at h
      cases hfm : findMatch (bal + braceDelta c) cs with
      | none => rw [hfm] at h; simp at h
      | some j' =>
        rw [hfm] at h
        simp only [Option.map_some', Option.some.injEq] at h
        rw [← h, show j' + 1 + 1 = (j' + 1) + 1 from rfl, take_succ_cons]
        simp only [findMatch, if_neg hc]
        rw [ih (bal + braceDelta c) j' hfm]
        rfl

theorem firstBrace_drop (s : Str) : ∀ (i : Nat), firstBraceIdx s = some i →
    ∃ rest, s.drop i = '{' :: rest := by
  induction s with
  | nil => intro i h; simp [firstBraceIdx] at h
  | cons c cs ih =>
    intro i h
    by_cases hc : c = '{'
    · simp only [firstBraceIdx, if_pos hc, Option.some.injEq] at h
      exact ⟨cs, by rw [← h, List.drop_zero, hc]⟩
    · simp only [firstBraceIdx, if_neg hc] at h
      cases hfb : firstBraceIdx cs with
      | none => rw [hfb] at h; simp at h
      | some i' =>
        rw [hfb] at h
        simp only [Option.map_some', Option.some.injEq] at h
        obtain ⟨rest, hrest⟩ := ih i' hfb
        exact ⟨rest, by rw [← h]; simpa using hrest⟩

/-- Re-applying the extraction strategy to its own successful output
returns that output unchanged. -/
theorem extract_valid_json_idem (parse : Str → Option JsonValue) (s t : Str)
    (h : extract_valid_json parse s = some t) :
    extract_valid_json parse t = some t := by
  unfold extract_valid_json at h
  split at h
  · simp at h
  · rename_i i0 hfb
    split at h
    · simp at h
    · rename_i j hfm
      split at h
      · rename_i v hp
        simp only [Option.some.injEq] at h
        obtain ⟨rest, hdrop⟩ := firstBrace_drop s i0 hfb
        have hlt := findMatch_lt (s.drop i0) 0 j hfm
        have htake := findMatch_take (s.drop i0) 0 j hfm
        have hlen : t.length = j + 1 := by
          rw [← h, List.length_take]
          omega
        have hhead : t = '{' :: (rest.take j) := by
          rw [← h, hdrop, take_succ_cons]
        have hfbt : firstBraceIdx t = some 0 := by
          rw [hhead]; simp [firstBraceIdx]
        have hfmt : findMatch 0 t = some j := by rw [← h]; exact htake
        have htt : t.take (j + 1) = t := List.take_of_length_le (le_of_eq hlen)
        have hpt : parse t = some v := by rw [h] at hp; exact hp
        unfold extract_valid_json
        simp only [hfbt, List.drop_zero, hfmt, htt, hpt]
      · simp at h

/-- C5 counterexample: the string consisting of an object with one key
whose string value contains a brace-and-colon pattern is valid JSON, yet
the key-quoting repair rewrites inside the string literal, changing the
text and making it invalid, so already-valid JSON is neither left valid nor
left unchanged. -/
theorem c5_counterexample :
    jsonWf (chars "\x7b\"a\": \"x\x7bb:c\"\x7d") = true ∧
    fix_common_json_issues (chars "\x7b\"a\": \"x\x7bb:c\"\x7d")
      ≠ chars "\x7b\"a\": \"x\x7bb:c\"\x7d" ∧
    jsonWf (fix_common_json_issues (chars "\x7b\"a\": \"x\x7bb:c\"\x7d")) = false := by
  refine ⟨by decide, by decide, by decide⟩

/-- C5 amended: re-applying the extraction-by-matching-braces strategy to
its own successful output yields the same output, and an already-valid JSON
string in which no occurrence of any of the five unquoted-key rewrite
patterns appears (in particular none inside its string literals) is left
valid and unchanged by the key-quoting repair. -/
theorem c5_repair_idempotence :
    (∀ (parse : Str → Option JsonValue) (s t : Str),
        extract_valid_json parse s = some t → extract_valid_json parse t = some t) ∧
    (∀ s : Str, jsonWf s = true →
        noMatchB tryP1 s = true → noMatchB tryP2 s = true → noMatchB tryP3 s = true →
        noMatchB tryP4 s = true → noMatchB tryP5 s = true →
        fix_common_json_issues s = s ∧ jsonWf (fix_common_json_issues s) = true) := by
  constructor
  · exact extract_valid_json_idem
  · intro s hwf h1 h2 h3 h4 h5
    have hfix : fix_common_json_issues s = s := by
      unfold fix_common_json_issues
      rw [subPassRun_id tryP1 s h1, subPassRun_id tryP2 s h2, subPassRun_id tryP3 s h3,
        subPassRun_id tryP4 s h4, subPassRun_id tryP5 s h5]
    exact ⟨hfix, by rw [hfix]; exact hwf⟩

/-- Parse oracle granting exactly the empty JSON object (json.loads accepts
the two-character brace pair and rejects the other strings submitted to it
in the witness below). -/
def parseEmptyObj : Str → Option JsonValue :=
  fun t => if t = chars "\x7b\x7d" then some (JsonValue.obj []) else none

/-- C5 witness: extraction of a brace pair out of surrounding junk is a
fixed point of re-extraction, and a pattern-free valid JSON array is
unchanged by key quoting. -/
theorem c5_witness :
    extract_valid_json parseEmptyObj (chars "a\x7b\x7db") = some (chars "\x7b\x7d") ∧
    extract_valid_json parseEmptyObj (chars "\x7b\x7d") = some (chars "\x7b\x7d") ∧
    fix_common_json_issues (chars "[1, 2]") = chars "[1, 2]" := by
  have h1 : extract_valid_json parseEmptyObj (chars "a\x7b\x7db") = some (chars "\x7b\x7d") := by
    decide
  refine ⟨h1, c5_repair_idempotence.1 parseEmptyObj _ _ h1, ?_⟩
  exact (c5_repair_idempotence.2 (chars "[1, 2]") (by decide) (by decide) (by decide)
    (by decide) (by decide) (by decide)).1

/-! ## Schema validation (_validate_required_fields, _validate_json_format) -/

def kPersonalInformation : Str := chars "personal_information"
def kFirstName : Str := chars "first_name"
def kLastName : Str := chars "last_name"
def kReferences : Str := chars "references"
def kName : Str := chars "name"
def kRelationship : Str := chars "relationship"

/-- AIProcessor._validate_required_fields: succeeds exactly when the
personal-information entry exists, is a dict (attribute access .get on any
other value raises, which the function converts into a failure), and both
identity fields have Python-truthy values (dict.get returns None when the
key is absent). -/
def validate_required_fields (data : List (Str × JsonValue)) : Bool :=
  match getKey data kPersonalInformation with
  | none => false
  | some (JsonValue.obj pi) =>
      pyTruthy ((getKey pi kFirstName).getD JsonValue.null)
        && pyTruthy ((getKey pi kLastName).getD JsonValue.null)
  | some _ => false

/-- Python type expectations used by _validate_json_format. -/
inductive PyType where
  | dict : PyType
  | list : PyType
  | str : PyType

def typeMatches : PyType → JsonValue → Bool
  | .dict, .obj _ => true
  | .list, .arr _ => true
  | .str, .str _ => true
  | _, _ => false

/-- Warnings collected (and merely printed) by _validate_json_format. -/
inductive FormatWarning where
  | fieldTypeMismatch (key : Str) : FormatWarning
  | missingOptionalField (key : Str) : FormatWarning
  | personalFieldTypeMismatch (key : Str) : FormatWarning
  | missingOptionalPersonalField (key : Str) : FormatWarning
  | referenceNotObject (idx : Nat) : FormatWarning
  | referenceMissingName (idx : Nat) : FormatWarning
  | referenceMissingRelationship (idx : Nat) : FormatWarning

/-- The expected_structure table of _validate_json_format. -/
def expected_structure : List (Str × PyType) :=
  [(kPersonalInformation, .dict),
   (chars "professional_summary", .str),
   (chars "work_experience", .list),
   (chars "it_system_used", .list),
   (chars "education", .list),
   (chars "skills", .dict),
   (chars "certifications", .list),
   (chars "projects", .list),
   (chars "awards_and_honors", .list),
   (chars "volunteer_experience", .list),
   (chars "interests", .list),
   (kReferences, .list),
   (chars "additional_information", .str)]

/-- The expected_personal_fields table of _validate_json_format. -/
def expected_personal_fields : List (Str × PyType) :=
  [(kFirstName, .str),
   (chars "middle_name", .str),
   (kLastName, .str),
   (chars "emails", .list),
   (chars "birth_date", .str),
   (chars "gender", .str),
   (chars "civil_status", .str),
   (chars "alias", .list),
   (chars "phones", .list),
   (chars "address", .dict),
   (chars "desired_location", .dict),
   (chars "work_preference", .dict),
   (chars "social_urls", .list)]

/-- Python list.startswith-style prefix test on character lists. -/
def startsWithL : Str → Str → Bool
  | [], _ => true
  | _ :: _, [] => false
  | p :: ps, c :: cs => p == c && startsWithL ps cs

/-- Python substring containment (the in operator on strings). -/
def isSubstrOf (pat : Str) : Str → Bool
  | [] => pat.isEmpty
  | c :: cs => startsWithL pat (c :: cs) || isSubstrOf pat cs

/-- Warnings for the top-level expected_structure loop. -/
def topWarnings (data : List (Str × JsonValue)) : List FormatWarning :=
  expected_structure.foldl
    (fun acc kv =>
      match getKey data kv.1 with
      | some v => if typeMatches kv.2 v then acc else acc ++ [.fieldTypeMismatch kv.1]
      | none => acc ++ [.missingOptionalField kv.1])
    []

/-- Warnings for the personal-information loop; none models the exception
raised when the section is not a dict: Python then either fails the
membership test with a TypeError (non-container values) or passes it and
fails the subsequent indexing with a TypeError (string or list values
containing a field name). -/
def personalWarnings (pi : JsonValue) : Option (List FormatWarning) :=
  match pi with
  | .obj fields =>
      some (expected_personal_fields.foldl
        (fun acc kv =>
          match getKey fields kv.1 with
          | some v =>
            if typeMatches kv.2 v then acc else acc ++ [.personalFieldTypeMismatch kv.1]
          | none => acc ++ [.missingOptionalPersonalField kv.1])
        [])
  | .str s =>
      if expected_personal_fields.any (fun kv => isSubstrOf kv.1 s) then none
      else some (expected_personal_fields.map (fun kv => .missingOptionalPersonalField kv.1))
  | .arr l =>
      if expected_personal_fields.any
          (fun kv => l.any (fun e => match e with | .str t => t = kv.1 | _ => false)) then none
      else some (expected_personal_fields.map (fun kv => .missingOptionalPersonalField kv.1))
  | _ => none

/-- Warnings for the references loop. -/
def referencesWarnings (data : List (Str × JsonValue)) : List FormatWarning :=
  match getKey data kReferences with
  | some (.arr l) =>
      (l.enum).foldl
        (fun acc iv =>
          match iv.2 with
          | .obj f =>
            let acc1 := if (getKey f kName).isSome then acc else acc ++ [.referenceMissingName iv.1]
            if (getKey f kRelationship).isSome then acc1
            else acc1 ++ [.referenceMissingRelationship iv.1]
          | _ => acc ++ [.referenceNotObject iv.1])
        []
  | _ => []

/-- AIProcessor._validate_json_format: collects warnings without failing,
except that a non-dict personal-information section makes it raise (none). -/
def validate_json_format (data : List (Str × JsonValue)) : Option (List FormatWarning) :=
  match getKey data kPersonalInformation with
  | none => some (topWarnings data ++ referencesWarnings data)
  | some pi =>
    match personalWarnings pi with
    | none => none
    | some pw => some (topWarnings data ++ pw ++ referencesWarnings data)

/-- AIProcessor._validate_and_return_result: the parsed value must be a
dict, must pass required-field validation, and format validation must not
raise. -/
def validate_and_return (v : JsonValue) : Bool :=
  match v with
  | .obj data => validate_required_fields data && (validate_json_format data).isSome
  | _ => false

/-! ## C6: required-field validation -/

/-- The claim's reading of a missing identity field: absent, null, or an
empty string/array/object; numbers and booleans are present and
non-empty. -/
def fieldAbsentOrEmpty : Option JsonValue → Bool
  | none => true
  | some .null => true
  | some (.str s) => s.isEmpty
  | some (.arr l) => l.isEmpty
  | some (.obj m) => m.isEmpty
  | some _ => false

/-- Field lookup inside the personal-information section as the claim reads
it (a non-object section simply has no fields). -/
def sectionField (pi : JsonValue) (k : Str) : Option JsonValue :=
  match pi with
  | .obj f => getKey f k
  | _ => none

/-- The claim's validation-failure predicate, written from the claim's own
words: failure iff the personal-information section is lacking or an
identity field is absent or empty. -/
def claim_required_violation (data : List (Str × JsonValue)) : Bool :=
  match getKey data kPersonalInformation with
  | none => true
  | some pi =>
      fieldAbsentOrEmpty (sectionField pi kFirstName)
        || fieldAbsentOrEmpty (sectionField pi kLastName)

/-- C6 counterexample: a candidate whose first name is the number zero has
both identity fields present and non-empty (no violation under the claim's
reading), yet the code's required-field validation fails because Python
treats zero as falsy. -/
theorem c6_counterexample :
    claim_required_violation
      [(kPersonalInformation,
        JsonValue.obj [(kFirstName, JsonValue.num 0), (kLastName, JsonValue.str (chars "B"))])]
      = false ∧
    validate_required_fields
      [(kPersonalInformation,
        JsonValue.obj [(kFirstName, JsonValue.num 0), (kLastName, JsonValue.str (chars "B"))])]
      = false := by
  refine ⟨by decide, by decide⟩

/-- C6 amended: required-field validation succeeds exactly when the
personal-information entry is a dict whose first_name and last_name values
are Python-truthy (so null, false, zero, empty strings and empty containers
all fail, not only absent-or-empty values); after it succeeds, format
validation never fails, and adding or changing any other top-level field,
even with a mismatched type, never changes the validation outcome. -/
theorem c6_required_field_validation :
    (∀ data : List (Str × JsonValue),
      validate_required_fields data = true ↔
        ∃ pi, getKey data kPersonalInformation = some (JsonValue.obj pi) ∧
          pyTruthy ((getKey pi kFirstName).getD JsonValue.null) = true ∧
          pyTruthy ((getKey pi kLastName).getD JsonValue.null) = true) ∧
    (∀ data : List (Str × JsonValue),
      validate_required_fields data = true → (validate_json_format data).isSome = true) ∧
    (∀ (data : List (Str × JsonValue)) (k : Str) (v : JsonValue), ¬ k = kPersonalInformation →
      validate_and_return (JsonValue.obj ((k, v) :: data))
        = validate_and_return (JsonValue.obj data)) := by
  refine ⟨?_, ?_, ?_⟩
  · intro data
    constructor
    · intro h
      unfold validate_required_fields at h
      split at h
      · simp at h
      · rename_i pi hpi
        simp only [Bool.and_eq_true] at h
        exact ⟨pi, hpi, h.1, h.2⟩
      · simp at h
    · rintro ⟨pi, hpi, h1, h2⟩
      unfold validate_required_fields
      rw [hpi]
      simp [h1, h2]
  · intro data h
    unfold validate_required_fields at h
    split at h
    · simp at h
    · rename_i pi hpi
      unfold validate_json_format
      rw [hpi]
      simp [personalWarnings]
    · simp at h
  · intro data k v hk
    have hget : ∀ k', ¬ k = k' →
        getKey ((k, v) :: data) k' = getKey data k' := by
      intro k' hkk
      simp [getKey, hkk]
    have h1 : validate_required_fields ((k, v) :: data) = validate_required_fields data := by
      unfold validate_required_fields
      rw [hget kPersonalInformation hk]
    have h2 : (validate_json_format ((k, v) :: data)).isSome
        = (validate_json_format data).isSome := by
      unfold validate_json_format
      rw [hget kPersonalInformation hk]
      cases getKey data kPersonalInformation with
      | none => simp
      | some pi => cases hpw : personalWarnings pi <;> simp [hpw]
    show (validate_required_fields ((k, v) :: data)
        && (validate_json_format ((k, v) :: data)).isSome)
      = (validate_required_fields data && (validate_json_format data).isSome)
    rw [h1, h2]

/-- C6 witness: a well-formed candidate passes, its format validation does
not raise, and prepending an unrelated mistyped field leaves the outcome
unchanged. -/
theorem c6_witness :
    validate_required_fields
      [(kPersonalInformation,
        JsonValue.obj [(kFirstName, JsonValue.str (chars "A")),
                       (kLastName, JsonValue.str (chars "B"))])] = true ∧
    (validate_json_format
      [(kPersonalInformation,
        JsonValue.obj [(kFirstName, JsonValue.str (chars "A")),
                       (kLastName, JsonValue.str (chars "B"))])]).isSome = true ∧
    validate_and_return
      (JsonValue.obj ((chars "skills", JsonValue.num 3) ::
        [(kPersonalInformation,
          JsonValue.obj [(kFirstName, JsonValue.str (chars "A")),
                         (kLastName, JsonValue.str (chars "B"))])]))
      = validate_and_return
        (JsonValue.obj
          [(kPersonalInformation,
            JsonValue.obj [(kFirstName, JsonValue.str (chars "A")),
                           (kLastName, JsonValue.str (chars "B"))])]) := by
  refine ⟨by decide, ?_, ?_⟩
  · exact c6_required_field_validation.2.1 _ (by decide)
  · exact c6_required_field_validation.2.2 _ (chars "skills") (JsonValue.num 3) (by decide)

/-! ## The repair engine of _parse_ai_response (C4) -/

/-- The three repair strategies, in the claim's vocabulary. -/
inductive Strategy where
  | keyQuoting : Strategy
  | extraction : Strategy
  | completion : Strategy
deriving DecidableEq

/-- Outcome of the repair chain: the strategies entered, in order, and the
final accepted value if any. -/
structure RepairOutcome where
  attempted : List Strategy
  result : Option JsonValue

/-- Parse a candidate and validate it (json.loads followed by
_validate_and_return_result); any failure is caught by the enclosing
try/except and surfaces as none. -/
def repair_accept (parse : Str → Option JsonValue) (cand : Str) : Option JsonValue :=
  match parse cand with
  | some v => if validate_and_return v then some v else none
  | none => none

/-- The repair chain of _parse_ai_response: approach 1 is the key-quoting
repair, approach 2 the extraction by matching braces, approach 3 the
completion of truncated JSON; each approach starts from the original raw
text, and an approach succeeds only if its candidate parses and passes
validation. -/
def repair_approaches (parse : Str → Option JsonValue) (s : Str) : RepairOutcome :=
  match repair_accept parse (fix_common_json_issues s) with
  | some v => ⟨[.keyQuoting], some v⟩
  | none =>
    match (match extract_valid_json parse s with
           | some j => repair_accept parse j
           | none => none) with
    | some v => ⟨[.keyQuoting, .extraction], some v⟩
    | none =>
      match (match complete_truncated_json parse s with
             | some c => repair_accept parse c
             | none => none) with
      | some v => ⟨[.keyQuoting, .extraction, .completion], some v⟩
      | none => ⟨[.keyQuoting, .extraction, .completion], none⟩

/-- Candidate text produced by one strategy from the original raw text. -/
def strategyCandidate (parse : Str → Option JsonValue) (s : Str) : Strategy → Option Str
  | .keyQuoting => some (fix_common_json_issues s)
  | .extraction => extract_valid_json parse s
  | .completion => complete_truncated_json parse s

/-- Engine written from the claim's words: try the strategies in the given
order, each on the full original raw text, stopping at the first strategy
whose result parses. -/
def claimRepairGo (parse : Str → Option JsonValue) (s : Str) :
    List Strategy → List Strategy → RepairOutcome
  | [], acc => ⟨acc.reverse, none⟩
  | st :: rest, acc =>
    match strategyCandidate parse s st with
    | none => claimRepairGo parse s rest (st :: acc)
    | some c =>
      match parse c with
      | some v => ⟨(st :: acc).reverse, some v⟩
      | none => claimRepairGo parse s rest (st :: acc)

/-- The claim's engine: extraction first, then key quoting, then
completion; success is bare parseability. -/
def claim_repair (parse : Str → Option JsonValue) (s : Str) : RepairOutcome :=
  claimRepairGo parse s [.extraction, .keyQuoting, .completion] []

/-- Engine written from the amended claim's words: key quoting first, then
extraction, then completion, each on the full original raw text, stopping
at the first strategy whose result parses and passes validation. -/
def amendedRepairGo (parse : Str → Option JsonValue) (s : Str) :
    List Strategy → List Strategy → RepairOutcome
  | [], acc => ⟨acc.reverse, none⟩
  | st :: rest, acc =>
    match strategyCandidate parse s st with
    | none => amendedRepairGo parse s rest (st :: acc)
    | some c =>
      match repair_accept parse c with
      | some v => ⟨(st :: acc).reverse, some v⟩
      | none => amendedRepairGo parse s rest (st :: acc)

def amended_repair (parse : Str → Option JsonValue) (s : Str) : RepairOutcome :=
  amendedRepairGo parse s [.keyQuoting, .extraction, .completion] []

/-- Parse oracle for the C4 counterexample: json.loads succeeds on the
key-quoted object and fails on every other string submitted to it (the
jsonWf conjuncts of the counterexample certify this on the candidates the
engines produce). -/
def parseAOne : Str → Option JsonValue :=
  fun t =>
    if t = chars "\x7b \"a\": 1\x7d" then some (JsonValue.obj [(chars "a", JsonValue.num 1)])
    else none

/-- C4 counterexample: on the raw text consisting of an object with one
unquoted key, the code enters key quoting first (not extraction), and it
keeps going after the key-quoted candidate parses because validation
fails, so the strategy order and the stopping rule of the claim are both
contradicted. -/
theorem c4_counterexample :
    (repair_approaches parseAOne (chars "\x7ba: 1\x7d")).attempted
      = [Strategy.keyQuoting, Strategy.extraction, Strategy.completion] ∧
    (repair_approaches parseAOne (chars "\x7ba: 1\x7d")).result.isSome = false ∧
    (claim_repair parseAOne (chars "\x7ba: 1\x7d")).attempted
      = [Strategy.extraction, Strategy.keyQuoting] ∧
    (claim_repair parseAOne (chars "\x7ba: 1\x7d")).result.isSome = true ∧
    jsonWf (chars "\x7b \"a\": 1\x7d") = true ∧
    jsonWf (chars "\x7ba: 1\x7d") = false := by
  refine ⟨by decide, by decide, by decide, by decide, by decide, by decide⟩

/-- C4 amended: the repair strategies run in the fixed order key-quoting,
extraction-by-matching-braces, completion-by-closing, each applied to the
full original raw text, stopping at the first strategy whose result parses
and passes required-field validation. -/
theorem c4_repair_order (parse : Str → Option JsonValue) (s : Str) :
    repair_approaches parse s = amended_repair parse s := by
  cases h1 : repair_accept parse (fix_common_json_issues s) with
  | some v =>
    simp [repair_approaches, amended_repair, amendedRepairGo, strategyCandidate, h1]
  | none =>
    cases h2 : extract_valid_json parse s with
    | none =>
      cases h3 : complete_truncated_json parse s with
      | none =>
        simp [repair_approaches, amended_repair, amendedRepairGo, strategyCandidate, h1, h2, h3]
      | some c =>
        cases h4 : repair_accept parse c with
        | some v =>
          simp [repair_approaches, amended_repair, amendedRepairGo, strategyCandidate,
            h1, h2, h3, h4]
        | none =>
          simp [repair_approaches, amended_repair, amendedRepairGo, strategyCandidate,
            h1, h2, h3, h4]
    | some j =>
      cases h2b : repair_accept parse j with
      | some v =>
        simp [repair_approaches, amended_repair, amendedRepairGo, strategyCandidate,
          h1, h2, h2b]
      | none =>
        cases h3 : complete_truncated_json parse s with
        | none =>
          simp [repair_approaches, amended_repair, amendedRepairGo, strategyCandidate,
            h1, h2, h2b, h3]
        | some c =>
          cases h4 : repair_accept parse c with
          | some v =>
            simp [repair_approaches, amended_repair, amendedRepairGo, strategyCandidate,
              h1, h2, h2b, h3, h4]
          | none =>
            simp [repair_approaches, amended_repair, amendedRepairGo, strategyCandidate,
              h1, h2, h2b, h3, h4]

/-! ## Continuation gate and the full _parse_ai_response (C7) -/

def qPersonalInformation : Str := chars "\"personal_information\""
def qFirstName : Str := chars "\"first_name\""
def qLastName : Str := chars "\"last_name\""

/-- AIProcessor._has_valid_starting_structure: an opening brace must exist
and at least two of the three quoted schema markers must occur in the
response. -/
def has_valid_starting_structure (s : Str) : Bool :=
  match firstBraceIdx s with
  | none => false
  | some _ =>
    decide (2 ≤ ([qPersonalInformation, qFirstName, qLastName].filter
      (fun m => isSubstrOf m s)).length)

/-- The continuation round trip: _continue_ai_response gives up when no
balanced prefix exists, otherwise the network outcome (abstracted as an
oracle) is spliced by _concatenate_responses (the balanced prefix, right
stripped of whitespace and trailing commas, followed by the continuation),
parsed and validated. -/
def continuationResult (parse : Str → Option JsonValue) (contOracle : Option Str)
    (s : Str) : Option JsonValue :=
  if find_last_complete_structure s = 0 then none
  else
    match contOracle with
    | none => none
    | some continuation =>
      match parse (rstripComma (pyRStrip (s.take (find_last_complete_structure s)))
          ++ continuation) with
      | some v => if validate_and_return v then some v else none
      | none => none

/-- Outcome of _parse_ai_response: whether the continuation path was
entered, the final value if the attempt succeeded, and which repair
strategies ran. -/
structure ParseOutcome where
  contAttempted : Bool
  result : Option JsonValue
  repairAttempted : List Strategy

/-- AIProcessor._parse_ai_response: parse directly (validation failures on
that path re-raise without repair); on a parse failure, enter the
continuation path when a prompt and model are available and the response
has valid starting structure, and fall back to the repair chain on the
original text when continuation is not entered or does not produce a
validated value. -/
def parse_ai_response (parse : Str → Option JsonValue) (promptAvail : Bool)
    (contOracle : Option Str) (s : Str) : ParseOutcome :=
  match parse s with
  | some v => ⟨false, if validate_and_return v then some v else none, []⟩
  | none =>
    if promptAvail && has_valid_starting_structure s then
      match continuationResult parse contOracle s with
      | some v => ⟨true, some v, []⟩
      | none =>
        ⟨true, (repair_approaches parse s).result, (repair_approaches parse s).attempted⟩
    else
      ⟨false, (repair_approaches parse s).result, (repair_approaches parse s).attempted⟩

/-- Parse oracle that rejects everything (json.loads fails on every string
submitted to it in the concrete scenarios below, as certified by the jsonWf
conjuncts). -/
def parseNone : Str → Option JsonValue := fun _ => none

/-- The truncation condition as the claim states it: provider flag, or the
stripped text does not end with a closing brace, or the brace/bracket scan
does not end at depth zero. -/
def endsWithCloseBrace (t : Str) : Bool :=
  match t.getLast? with
  | some c => c == '}'
  | none => false

def claim_truncated (flag : Bool) (s : Str) : Bool :=
  flag || !(endsWithCloseBrace (pyStrip s))
    || !(decide (braceDepth s = 0 ∧ bracketDepth s = 0))

/-- C7 counterexample: a balanced response ending in a closing brace (not
truncated under the claim's condition, with the provider flag unset) that
fails to parse and contains two of the three schema markers makes the code
attempt AI continuation, so continuation is not gated on detected
truncation. -/
theorem c7_counterexample :
    (parse_ai_response parseNone true none
      (chars "\x7b\"personal_information\" \"first_name\"\x7d")).contAttempted = true ∧
    claim_truncated false (chars "\x7b\"personal_information\" \"first_name\"\x7d") = false ∧
    jsonWf (chars "\x7b\"personal_information\" \"first_name\"\x7d") = false := by
  refine ⟨by decide, by decide, by decide⟩

/-- C7 amended: continuation is attempted exactly when the direct parse
fails, a prompt and model are available, and the response contains an
opening brace together with at least two of the three schema markers
(truncation itself is not consulted); whenever the continuation path is not
entered or does not produce a validated value, the repair chain runs on the
original raw text. -/
theorem c7_continuation_gate (parse : Str → Option JsonValue) (promptAvail : Bool)
    (contOracle : Option Str) (s : Str) :
    ((parse_ai_response parse promptAvail contOracle s).contAttempted = true ↔
      (parse s = none ∧ promptAvail = true ∧ has_valid_starting_structure s = true)) ∧
    (parse s = none →
      ((promptAvail && has_valid_starting_structure s) = false ∨
        continuationResult parse contOracle s = none) →
      (parse_ai_response parse promptAvail contOracle s).result
        = (repair_approaches parse s).result) := by
  constructor
  · cases hp : parse s with
    | some v =>
      simp [parse_ai_response, hp]
    | none =>
      by_cases hg : (promptAvail && has_valid_starting_structure s) = true
      · cases hc : continuationResult parse contOracle s with
        | some v =>
          simp only [parse_ai_response, hp, hg, if_true, hc]
          simp only [Bool.and_eq_true] at hg
          simp [hg.1, hg.2]
        | none =>
          simp only [parse_ai_response, hp, hg, if_true, hc]
          simp only [Bool.and_eq_true] at hg
          simp [hg.1, hg.2]
      · simp only [Bool.not_eq_true] at hg
        simp only [parse_ai_response, hp, hg, Bool.false_eq_true, if_false]
        constructor
        · intro hfalse; exact absurd hfalse (by simp)
        · rintro ⟨_, h1, h2⟩
          rw [h1, h2] at hg
          simp at hg
  · intro hp hor
    cases hor with
    | inl hg =>
      simp [parse_ai_response, hp, hg]
    | inr hc =>
      by_cases hg : (promptAvail && has_valid_starting_structure s) = true
      · simp [parse_ai_response, hp, hg, hc]
      · simp only [Bool.not_eq_true] at hg
        simp [parse_ai_response, hp, hg]

/-- C7 witness: an unbalanced response with two markers enters continuation
and, with the continuation call failing, falls back to the repair chain. -/
theorem c7_witness :
    (parse_ai_response parseNone true none
      (chars "\x7b\"first_name\" \"last_name\"")).contAttempted = true ∧
    (parse_ai_response parseNone true none (chars "\x7b\"first_name\" \"last_name\"")).result
      = (repair_approaches parseNone (chars "\x7b\"first_name\" \"last_name\"")).result := by
  constructor
  · exact (c7_continuation_gate parseNone true none
      (chars "\x7b\"first_name\" \"last_name\"")).1.mpr ⟨rfl, rfl, by decide⟩
  · exact (c7_continuation_gate parseNone true none
      (chars "\x7b\"first_name\" \"last_name\"")).2 rfl (Or.inr rfl)

/-! ## C2: the truncation check of _call_openrouter_api -/

/-- The truncation condition actually tested by _call_openrouter_api: the
provider finish_reason equals length, or the stripped response does not end
with a closing brace. -/
def truncation_flagged (finish_reason : Str) (s : Str) : Bool :=
  (finish_reason == chars "length") || !(endsWithCloseBrace (pyStrip s))

/-- The post-processing applied by _call_openrouter_api: a fix pass when
the provider flag is set, then a fix pass when the (possibly already
fixed) response does not end with a closing brace. -/
def api_truncation_fix (finish_reason : Str) (s : Str) : Str :=
  let s1 := if finish_reason == chars "length" then fix_truncated_json s else s
  if !(endsWithCloseBrace (pyStrip s1)) then fix_truncated_json s1 else s1

/-- C2 counterexample: a response of two opening braces and one closing
brace ends with a closing brace and carries a normal finish reason, so the
code reports it not truncated, although the scan ends at depth one, which
the claim's condition (c) flags as truncated; the claimed consequence that
non-truncated text has depth zero also fails here. -/
theorem c2_counterexample :
    truncation_flagged (chars "stop") (chars "\x7b\x7b\x7d") = false ∧
    claim_truncated false (chars "\x7b\x7b\x7d") = true ∧
    braceDepth (chars "\x7b\x7b\x7d") = 1 := by
  refine ⟨by decide, by decide, by decide⟩

/-- C2 amended: the check reports truncated exactly when the provider
finish reason is length or the stripped text does not end with a closing
brace (no depth scan is involved); consequently a response reported not
truncated ends, after stripping, with a closing brace, and no truncation
fix is applied to it, while its end-of-text depth may be nonzero. -/
theorem c2_truncation_check (finish_reason : Str) (s : Str) :
    (truncation_flagged finish_reason s = false ↔
      (¬ finish_reason = chars "length" ∧ endsWithCloseBrace (pyStrip s) = true)) ∧
    (truncation_flagged finish_reason s = false → api_truncation_fix finish_reason s = s) := by
  constructor
  · unfold truncation_flagged
    constructor
    · intro h
      simp only [Bool.or_eq_false_iff, Bool.not_eq_false'] at h
      exact ⟨by simpa using h.1, h.2⟩
    · rintro ⟨h1, h2⟩
      simp [h1, h2]
  · intro h
    unfold truncation_flagged at h
    simp only [Bool.or_eq_false_iff, Bool.not_eq_false'] at h
    unfold api_truncation_fix
    rw [h.1]
    simp [h.2]

/-- C2 witness: a plain empty object with a normal finish reason is
reported not truncated and passes through the fix stage unchanged. -/
theorem c2_witness :
    api_truncation_fix (chars "stop") (chars "\x7b\x7d") = chars "\x7b\x7d" :=
  (c2_truncation_check (chars "stop") (chars "\x7b\x7d")).2 (by decide)

/-! ## The fallback orchestrator (process_cv_to_json and
_process_cv_single_request) (C1, C8)

Per-model outcomes are abstracted by a deterministic oracle from model name
to either a parsed, validated value or an error message (the claims assume
deterministic per-model outcomes).  _process_cv_single_request ignores its
model argument and iterates over the full model list itself;
process_cv_to_json wraps it in a second fallback loop.  The error-details
dict also carries the filename, a text preview and the raw response
attached to the last error; these are independent of the earlier attempts
and are omitted from the model. -/

def primary_model : Str := chars "anthropic/claude-3.5-sonnet"
def gpt4o : Str := chars "openai/gpt-4o"
def haiku : Str := chars "anthropic/claude-3-haiku"
def llama : Str := chars "meta-llama/llama-3.1-8b-instruct"

def fallback_models : List Str := [gpt4o, haiku, llama]

/-- models_to_try of _process_cv_single_request. -/
def models_to_try (enable_fallback : Bool) : List Str :=
  primary_model :: (if enable_fallback then fallback_models else [])

/-- The structured error details raised when the inner loop exhausts all
models: a message quoting only the last error, and the list of models
tried. -/
structure ErrorDetails where
  error_message : Str
  models_tried : List Str

def allFailedMessage (last_error : Str) : Str :=
  chars "All models failed. Last error: " ++ last_error

/-- Inner loop of _process_cv_single_request over the model list, keeping
only the last error. -/
def singleGo (attempt : Str → Except Str JsonValue) (enable : Bool) :
    List Str → Option Str → Except ErrorDetails (Str × JsonValue)
  | [], last =>
    .error ⟨allFailedMessage (last.getD (chars "None")), models_to_try enable⟩
  | m :: rest, _ =>
    match attempt m with
    | .ok v => .ok (m, v)
    | .error e => singleGo attempt enable rest (some e)

/-- AIProcessor._process_cv_single_request: despite taking a model
argument, it iterates over the full configured model list. -/
def process_cv_single_request (attempt : Str → Except Str JsonValue) (enable : Bool) :
    Except ErrorDetails (Str × JsonValue) :=
  singleGo attempt enable (models_to_try enable) none

/-- The models actually invoked by one _process_cv_single_request call, in
order. -/
def singleInvocations (attempt : Str → Except Str JsonValue) : List Str → List Str
  | [] => []
  | m :: rest =>
    m :: (match attempt m with
          | .ok _ => []
          | .error _ => singleInvocations attempt rest)

def single_request_invocations (attempt : Str → Except Str JsonValue) (enable : Bool) :
    List Str :=
  singleInvocations attempt (models_to_try enable)

/-- Outer fallback loop of process_cv_to_json: one further full
_process_cv_single_request sweep per configured fallback model; the
terminal failure wraps only the primary error. -/
def processFallbackGo (attempt : Str → Except Str JsonValue) (enable : Bool) :
    List Str → ErrorDetails → Except ErrorDetails (Str × JsonValue)
  | [], pe =>
    .error ⟨chars "All AI models failed. Primary error: " ++ pe.error_message, pe.models_tried⟩
  | _ :: rest, pe =>
    match process_cv_single_request attempt enable with
    | .ok r => .ok r
    | .error _ => processFallbackGo attempt enable rest pe

/-- AIProcessor.process_cv_to_json: try the primary call (itself a full
sweep), then, if fallbacks are enabled, one further full sweep per fallback
model. -/
def process_cv_to_json (attempt : Str → Except Str JsonValue) (enable : Bool) :
    Except ErrorDetails (Str × JsonValue) :=
  match process_cv_single_request attempt enable with
  | .ok r => .ok r
  | .error primary_error =>
    if !enable then .error primary_error
    else processFallbackGo attempt enable fallback_models primary_error

/-- Models invoked by the outer fallback loop. -/
def processFallbackInvocations (attempt : Str → Except Str JsonValue) (enable : Bool) :
    List Str → List Str
  | [] => []
  | _ :: rest =>
    single_request_invocations attempt enable ++
      (match process_cv_single_request attempt enable with
       | .ok _ => []
       | .error _ => processFallbackInvocations attempt enable rest)

/-- All model invocations issued by one process_cv_to_json run, in order. -/
def process_invocations (attempt : Str → Except Str JsonValue) (enable : Bool) : List Str :=
  single_request_invocations attempt enable ++
    (match process_cv_single_request attempt enable with
     | .ok _ => []
     | .error _ =>
       if !enable then []
       else processFallbackInvocations attempt enable fallback_models)

/-- Oracle on which every model fails. -/
def attemptAllFail : Str → Except Str JsonValue := fun _ => Except.error (chars "boom")

/-- Oracle on which only the first fallback model succeeds. -/
def attemptSecond : Str → Except Str JsonValue :=
  fun m => if m = gpt4o then Except.ok (JsonValue.obj []) else Except.error (chars "e")

/-- C1: when every configured model fails deterministically, the
orchestrator issues sixteen invocations, re-invoking each of the four
models four times (the primary is re-invoked identically after failing),
because _process_cv_single_request ignores its model argument and sweeps
the whole list while process_cv_to_json loops it again per fallback model;
when a model succeeds, the single sweep does stop at the first success in
list order. -/
theorem c1_model_reinvocation :
    process_invocations attemptAllFail true =
      [primary_model, gpt4o, haiku, llama,
       primary_model, gpt4o, haiku, llama,
       primary_model, gpt4o, haiku, llama,
       primary_model, gpt4o, haiku, llama] ∧
    (process_invocations attemptAllFail true).count primary_model = 4 ∧
    process_invocations attemptSecond true = [primary_model, gpt4o] := by
  refine ⟨rfl, by decide, rfl⟩

/-- Extract the error message of a per-model outcome. -/
def errMsg : Except Str JsonValue → Str
  | .error e => e
  | .ok _ => []

/-- Oracle whose first-fallback error message is eA. -/
def attemptFailA : Str → Except Str JsonValue :=
  fun m => if m = gpt4o then Except.error (chars "eA") else Except.error (chars "e")

/-- Oracle whose first-fallback error message is eB. -/
def attemptFailB : Str → Except Str JsonValue :=
  fun m => if m = gpt4o then Except.error (chars "eB") else Except.error (chars "e")

/-- C8 counterexample: two all-fail runs whose first-fallback error reasons
differ produce identical terminal failures, so the terminal failure cannot
carry one structured reason per model attempted: only the last error is
kept. -/
theorem c8_counterexample :
    process_cv_to_json attemptFailA true = process_cv_to_json attemptFailB true ∧
    errMsg (attemptFailA gpt4o) ≠ errMsg (attemptFailB gpt4o) := by
  refine ⟨rfl, by decide⟩

/-- C8 amended: when every configured model fails, the single terminal
failure carries the ordered list of model names tried together with the
error reason of the last attempted model only (earlier models' reasons are
dropped), and no intermediate per-model failure escapes the orchestrator
boundary. -/
theorem c8_terminal_failure (attempt : Str → Except Str JsonValue) (e1 e2 e3 e4 : Str)
    (h1 : attempt primary_model = .error e1)
    (h2 : attempt gpt4o = .error e2)
    (h3 : attempt haiku = .error e3)
    (h4 : attempt llama = .error e4) :
    process_cv_to_json attempt true =
      .error ⟨chars "All AI models failed. Primary error: " ++ allFailedMessage e4,
        models_to_try true⟩ := by
  have hsweep : process_cv_single_request attempt true
      = .error ⟨allFailedMessage e4, models_to_try true⟩ := by
    simp [process_cv_single_request, models_to_try, fallback_models, singleGo, h1, h2, h3, h4]
  simp [process_cv_to_json, hsweep, processFallbackGo, fallback_models]

/-- Oracle that reports each model's own name as its error reason. -/
def attemptEcho : Str → Except Str JsonValue := fun m => Except.error m

/-- C8 witness: with per-model reasons equal to the model names, the
terminal failure quotes the last fallback model only. -/
theorem c8_witness :
    process_cv_to_json attemptEcho true =
      .error ⟨chars "All AI models failed. Primary error: " ++ allFailedMessage llama,
        models_to_try true⟩ :=
  c8_terminal_failure attemptEcho primary_model gpt4o haiku llama rfl rfl rfl rfl

/-! ## Token budget (_calculate_max_tokens) (C9) -/

/-- MODEL_TOKEN_LIMITS from config.py. -/
def MODEL_TOKEN_LIMITS : List (Str × Int) :=
  [(primary_model, 200000),
   (gpt4o, 128000),
   (haiku, 200000),
   (llama, 8192),
   (chars "anthropic/claude-3-opus", 200000),
   (chars "openai/gpt-4-turbo", 128000)]

def lookupTL : List (Str × Int) → Str → Option Int
  | [], _ => none
  | (k, v) :: rest, m => if k = m then some v else lookupTL rest m

/-- dict.get(model, 8192): the hardcoded conservative default for unknown
models. -/
def model_limit (m : Str) : Int := (lookupTL MODEL_TOKEN_LIMITS m).getD 8192

def MIN_MAX_TOKENS : Int := 2000
def SAFETY_BUFFER_TOKENS : Int := 1000

/-- AIProcessor._calculate_max_tokens. -/
def calculate_max_tokens (model : Str) (prompt_length : Nat) : Int :=
  let ml := model_limit model
  let estimated_prompt_tokens : Int := (prompt_length : Int) / 4
  let base_response_tokens : Int :=
    if 100000 < prompt_length then 30000
    else if 50000 < prompt_length then 25000
    else if 20000 < prompt_length then 20000
    else 15000
  let response_tokens :=
    min base_response_tokens (ml - estimated_prompt_tokens - SAFETY_BUFFER_TOKENS)
  let mt := min response_tokens (ml - estimated_prompt_tokens - SAFETY_BUFFER_TOKENS)
  max mt MIN_MAX_TOKENS

/-- C9 counterexample: for the small-context model and a forty-thousand
character prompt, the remaining context budget is negative, yet the
computed budget is the floor of two thousand tokens, exceeding the claimed
cap of context limit minus estimated prompt tokens minus the safety
buffer. -/
theorem c9_counterexample :
    calculate_max_tokens llama 40000 = 2000 ∧
    model_limit llama - ((40000 : Nat) : Int) / 4 - SAFETY_BUFFER_TOKENS = -2808 ∧
    ¬ calculate_max_tokens llama 40000
        ≤ model_limit llama - ((40000 : Nat) : Int) / 4 - SAFETY_BUFFER_TOKENS := by
  refine ⟨by decide, by decide, by decide⟩

/-- C9 amended: the computed budget is never below the configured floor,
and it respects the cap of context limit minus estimated prompt tokens
minus safety buffer whenever that cap is at least the floor (when the cap
is below the floor the floor wins); unknown model names use the default
conservative limit of 8192. -/
theorem c9_token_budget (model : Str) (prompt_length : Nat) :
    MIN_MAX_TOKENS ≤ calculate_max_tokens model prompt_length ∧
    (MIN_MAX_TOKENS ≤ model_limit model - (prompt_length : Int) / 4 - SAFETY_BUFFER_TOKENS →
      calculate_max_tokens model prompt_length
        ≤ model_limit model - (prompt_length : Int) / 4 - SAFETY_BUFFER_TOKENS) ∧
    (lookupTL MODEL_TOKEN_LIMITS model = none → model_limit model = 8192) := by
  unfold calculate_max_tokens
  dsimp only
  refine ⟨le_max_right _ _, ?_, ?_⟩
  · intro ha
    exact max_le (min_le_right _ _) ha
  · intro h
    unfold model_limit
    rw [h]
    rfl

/-- C9 witness: for the primary model and an empty prompt the budget sits
between the floor and the cap, and an unknown model name falls back to the
default limit. -/
theorem c9_witness :
    MIN_MAX_TOKENS ≤ calculate_max_tokens primary_model 0 ∧
    calculate_max_tokens primary_model 0
      ≤ model_limit primary_model - ((0 : Nat) : Int) / 4 - SAFETY_BUFFER_TOKENS ∧
    model_limit (chars "mystery/model") = 8192 := by
  refine ⟨(c9_token_budget primary_model 0).1,
    (c9_token_budget primary_model 0).2.1 (by decide),
    (c9_token_budget (chars "mystery/model") 0).2.2 (by decide)⟩

end CvAi
